import Mathlib

/-!
Verification of the page-splitting core of `pdf_splitr.py`.

The script splits every page of a PDF into a left and a right half and
filters each page's annotations onto the halves they overlap.  We embed
the geometry and annotation logic of `PDFProcessor.get_page_dimensions`
and `PDFProcessor.process_pdf` shallowly: coordinates become rationals,
PDF boxes become records, a page's optional `/CropBox`, `/MediaBox` and
`/Annots` entries become `Option` fields, and the per-annotation
`try/except` block becomes an `Except`-valued resolution step.
-/

/-- A PDF rectangle `[x_left, y_bottom, x_right, y_top]`, as stored in a
CropBox, MediaBox or annotation `/Rect` array. -/
structure Rect where
  left : ℚ
  bottom : ℚ
  right : ℚ
  top : ℚ
  deriving DecidableEq, Repr

/-- Width of a box, as PyPDF2 computes it: `right - left`. -/
def boxWidth (b : Rect) : ℚ := b.right - b.left

/-- Height of a box, as PyPDF2 computes it: `top - bottom`. -/
def boxHeight (b : Rect) : ℚ := b.top - b.bottom

/-- The resolved value of one annotation: its optional `/Rect` entry
(`'/Rect' in annot` in the code) and an abstract payload standing for all
its other content, which the script never touches. -/
structure AnnotObj where
  rect? : Option Rect
  payload : Nat
  deriving DecidableEq, Repr

/-- One element of a page's `/Annots` array.  It is either a direct
value, an indirect reference that resolves (`annot.get_object()`
succeeds), or an entry whose resolution raises — the case caught by the
per-annotation `except` block in `process_pdf` (lines 114 and 151). -/
inductive AnnotEntry where
  | direct (a : AnnotObj)
  | ref (a : AnnotObj)
  | badRef (tag : Nat)
  deriving DecidableEq, Repr

/-- Resolution of an `/Annots` entry (lines 104-105 / 141-142 of the
script): direct values and resolvable references yield their object,
a bad reference raises. -/
def resolve : AnnotEntry → Except Unit AnnotObj
  | .direct a => .ok a
  | .ref a => .ok a
  | .badRef _ => .error ()

/-- Resolution as an `Option`, for stating which source annotations have
a resolved value at all. -/
def resolveOpt (e : AnnotEntry) : Option AnnotObj :=
  match resolve e with
  | .ok a => some a
  | .error _ => none

/-- Whether resolving the entry raises. -/
def resolveFails (e : AnnotEntry) : Bool :=
  match resolve e with
  | .ok _ => false
  | .error _ => true

/-- A source page as the script reads it: optional `/CropBox`, optional
`/MediaBox`, optional `/Annots` array. -/
structure Page where
  cropBox? : Option Rect
  mediaBox? : Option Rect
  annots? : Option (List AnnotEntry)
  deriving DecidableEq, Repr

instance : Inhabited Page := ⟨⟨none, none, none⟩⟩

/-- Embeds `PDFProcessor.get_page_dimensions` (lines 49-59): if
`/CropBox` is in the page use the CropBox, else use the MediaBox; return
`(width, height, x_offset, y_offset)` where width/height are the chosen
box's `right - left` / `top - bottom` and the offsets are its lower-left
corner.  Reading `page.mediabox` on a page with no MediaBox raises in
PyPDF2; that is the `.error` case. -/
def get_page_dimensions (p : Page) : Except Unit (ℚ × ℚ × ℚ × ℚ) :=
  match p.cropBox? with
  | some box => .ok (boxWidth box, boxHeight box, box.left, box.bottom)
  | none =>
    match p.mediaBox? with
    | some box => .ok (boxWidth box, boxHeight box, box.left, box.bottom)
    | none => .error ()

/-- The per-annotation overlap test of lines 108-112 / 145-149: the
annotation is appended iff it has a `/Rect` and
`x_right > xMin and x_left < xMax`.  An annotation without a `/Rect`
falls through the `if '/Rect' in annot` guard and is silently skipped. -/
def annotOverlaps (xMin xMax : ℚ) (a : AnnotObj) : Bool :=
  match a.rect? with
  | none => false
  | some r => decide (xMin < r.right) && decide (r.left < xMax)

/-- The annotation loop of lines 100-117 / 137-154: resolve each entry;
a raising entry is skipped and, unless `quiet`, a warning is printed
(we count the warnings); a resolved entry is kept iff it overlaps the
half's horizontal bounds.  Returns the kept resolved objects in source
order together with the number of warnings printed. -/
def filterAnnots (quiet : Bool) (xMin xMax : ℚ) :
    List AnnotEntry → List AnnotObj × Nat
  | [] => ([], 0)
  | e :: rest =>
    let tail := filterAnnots quiet xMin xMax rest
    match resolve e with
    | .error _ => (tail.1, (if quiet then 0 else 1) + tail.2)
    | .ok a =>
      if annotOverlaps xMin xMax a then (a :: tail.1, tail.2)
      else (tail.1, tail.2)

/-- The source annotations that resolve, in order. -/
def resolvedAnnots (entries : List AnnotEntry) : List AnnotObj :=
  entries.filterMap resolveOpt

/-- Spec-side description of `filterAnnots` (spec 4.1
`filterAnnotations`): the subsequence of resolved annotations whose Rect
satisfies the strict overlap predicate, in source order, unmodified. -/
def specFilterAnnots (xMin xMax : ℚ) (entries : List AnnotEntry) :
    List AnnotObj :=
  (resolvedAnnots entries).filter (annotOverlaps xMin xMax)

/-- The `/Annots` handling for one half (lines 97-123 / 134-160).  If the
copied page has no `/Annots`, nothing happens.  If the array is present
but empty, the `if annots:` guard is false and the empty array is left in
place.  Otherwise the loop filters it: a nonempty result replaces the
array, an empty result deletes the `/Annots` key.  Kept resolved objects
are stored back as direct values.  Also returns the warning count. -/
def halfAnnots (quiet : Bool) (xMin xMax : ℚ)
    (annots? : Option (List AnnotEntry)) :
    Option (List AnnotEntry) × Nat :=
  match annots? with
  | none => (none, 0)
  | some annots =>
    if annots.isEmpty then (some annots, 0)
    else
      let res := filterAnnots quiet xMin xMax annots
      if res.1.isEmpty then (none, res.2)
      else (some (res.1.map AnnotEntry.direct), res.2)

/-- One emitted half page: its assigned bounding box (the MediaBox the
script writes) and its final `/Annots` attribute, `none` when the
attribute is absent. -/
structure HalfPage where
  box : Rect
  annots? : Option (List AnnotEntry)
  deriving DecidableEq, Repr

instance : Inhabited HalfPage := ⟨⟨⟨0, 0, 0, 0⟩, none⟩⟩

/-- The body of the page loop (lines 87-162) for one source page:
compute the dimensions, build the left half with box
`(x_offset, y_offset)`-`(x_offset + width/2, y_offset + height)` and the
right half with box
`(x_offset + width/2, y_offset)`-`(x_offset + width, y_offset + height)`,
filter the annotations of each half.  Returns both halves and the total
number of warnings, or the propagated error from
`get_page_dimensions`. -/
def processPage (quiet : Bool) (p : Page) :
    Except Unit (HalfPage × HalfPage × Nat) :=
  match get_page_dimensions p with
  | .error e => .error e
  | .ok (width, height, x_offset, y_offset) =>
    let la := halfAnnots quiet x_offset (x_offset + width / 2) p.annots?
    let ra := halfAnnots quiet (x_offset + width / 2) (x_offset + width)
      p.annots?
    .ok
      ({ box := ⟨x_offset, y_offset, x_offset + width / 2, y_offset + height⟩,
         annots? := la.1 },
       { box := ⟨x_offset + width / 2, y_offset, x_offset + width,
                 y_offset + height⟩,
         annots? := ra.1 },
       la.2 + ra.2)

/-- Embeds `PDFProcessor.process_pdf` (lines 61-166): process the pages in
order, appending the left half then the right half of each to the
writer.  The first page whose dimensions cannot be read raises and
aborts the whole loop; the output is produced only if every page
succeeds. -/
def process_pdf (quiet : Bool) :
    List Page → Except Unit (List HalfPage × Nat)
  | [] => .ok ([], 0)
  | p :: rest =>
    match processPage quiet p with
    | .error e => .error e
    | .ok (l, r, n) =>
      match process_pdf quiet rest with
      | .error e => .error e
      | .ok (out, m) => .ok (l :: r :: out, n + m)

/-- Observable outcome of one run of the module-level `process_pdf`
wrapper (lines 168-176): the process exit code and the written output
file, `none` when no file was created.  The writer only opens the output
file after all pages are processed (line 165), so an error leaves no
file; any exception is caught and turned into `typer.Exit(1)`. -/
structure RunResult where
  exitCode : Nat
  output? : Option (List HalfPage)
  deriving DecidableEq, Repr

/-- The module-level `process_pdf` wrapper: success prints the final
message and exits 0 with the file written; any exception exits 1 with no
file. -/
def runSplit (quiet : Bool) (pages : List Page) : RunResult :=
  match process_pdf quiet pages with
  | .ok (out, _) => { exitCode := 0, output? := some out }
  | .error _ => { exitCode := 1, output? := none }

/-- The positional arguments declared by the `typer` command `main`
(lines 179-182): exactly `input_pdf` and `output_pdf`. -/
def main_argument_names : List String := ["input_pdf", "output_pdf"]

/-- The option flags declared by the `typer` command `main`: none.  The
function signature of `main` has no parameter besides the two positional
arguments, so `typer` generates no `--quiet` or `-q` option. -/
def main_option_names : List String := []

/-- The `quiet` value the CLI path actually uses: the wrapper calls
`processor.process_pdf()` (line 172) with the parameter left at its
default `False`. -/
def cli_quiet : Bool := false

/-- The run as invoked from the CLI. -/
def cliRun (pages : List Page) : RunResult := runSplit cli_quiet pages

/-! Store model for the half-page construction.

Lines 91-94 and 128-131 build each half by creating a fresh `PdfWriter`,
adding the source page to it and assigning that copy's MediaBox corners.
To talk about mutation and aliasing we model the object store explicitly
as a list of page objects addressed by index. -/

/-- Modelled from the spec: `PdfWriter.add_page` of the external PDF
library (the spec's `appendPage` collaborator, sections 3 and 9) stores
an independent shallow copy of the page in the writer, sharing the
heavyweight content; in the store model it appends a copy of the page
value at a fresh index. -/
def pdfwriter_add_page (s : List Page) (p : Page) : List Page := s ++ [p]

/-- The MediaBox corner assignments of lines 93-94 / 130-131, acting on
one page object: `mediabox.lower_left = (x1, y1)` followed by
`mediabox.upper_right = (x2, y2)` leaves the page with MediaBox
`[x1, y1, x2, y2]`. -/
def mediabox_assign (b : Rect) (p : Page) : Page := { p with mediaBox? := some b }

/-- In-place update of the store slot at index `i`. -/
def modifyIdx (f : Page → Page) : Nat → List Page → List Page
  | _, [] => []
  | 0, p :: rest => f p :: rest
  | n + 1, p :: rest => p :: modifyIdx f n rest

/-- The half-construction sequence of lines 91-94 and 128-131 on the
store: copy the source page at index `i` into a fresh slot and assign
the left box to that copy, then copy the source again into another
fresh slot and assign the right box.  Returns the final store and the
indices of the left and right copies. -/
def splitStore (s : List Page) (i : Nat) (w h x0 y0 : ℚ) :
    List Page × Nat × Nat :=
  let src := s.getD i default
  let leftIdx := s.length
  let s1 := pdfwriter_add_page s src
  let s2 := modifyIdx (mediabox_assign ⟨x0, y0, x0 + w / 2, y0 + h⟩) leftIdx s1
  let rightIdx := s2.length
  let s3 := pdfwriter_add_page s2 src
  let s4 := modifyIdx (mediabox_assign ⟨x0 + w / 2, y0, x0 + w, y0 + h⟩)
    rightIdx s3
  (s4, leftIdx, rightIdx)

/-! Concrete pages and annotations used in witnesses and
counterexamples. -/

/-- Scenario A of the spec: MediaBox `(0, 0, 200, 100)`, no CropBox, no
annotations. -/
def pageA : Page :=
  { cropBox? := none, mediaBox? := some ⟨0, 0, 200, 100⟩, annots? := none }

/-- Scenario B of the spec: the same page with CropBox
`(10, 10, 190, 90)`. -/
def pageB : Page :=
  { cropBox? := some ⟨10, 10, 190, 90⟩,
    mediaBox? := some ⟨0, 0, 200, 100⟩, annots? := none }

/-- A page with a MediaBox of width zero. -/
def pageZeroWidth : Page :=
  { cropBox? := none, mediaBox? := some ⟨0, 0, 0, 100⟩, annots? := none }

/-- A page with neither CropBox nor MediaBox. -/
def pageNoBoxes : Page :=
  { cropBox? := none, mediaBox? := none, annots? := none }

/-- A page whose `/Annots` array is present but empty. -/
def pageEmptyAnnots : Page :=
  { cropBox? := none, mediaBox? := some ⟨0, 0, 200, 100⟩,
    annots? := some [] }

/-- Scenario C's annotation: Rect `(40, 0, 60, 50)`, entirely left of
the midline of `pageA`. -/
def annL : AnnotObj := { rect? := some ⟨40, 0, 60, 50⟩, payload := 2 }

/-- The same x-extent as `annL` but far away vertically. -/
def annLhigh : AnnotObj := { rect? := some ⟨40, 500, 60, 900⟩, payload := 3 }

/-- Scenario D's annotation: Rect `(90, 0, 110, 50)`, straddling the
midline `100` of `pageA`. -/
def straddleAnnot : AnnotObj := { rect? := some ⟨90, 0, 110, 50⟩, payload := 1 }

/-- A resolved annotation with no `/Rect` entry. -/
def noRectAnnot : AnnotObj := { rect? := none, payload := 7 }

/-- Scenario A's page carrying one annotation entirely in the left
half. -/
def pageC : Page :=
  { cropBox? := none, mediaBox? := some ⟨0, 0, 200, 100⟩,
    annots? := some [AnnotEntry.direct annL] }

/-- The left half the script emits for `pageC`. -/
def leftC : HalfPage :=
  { box := ⟨0, 0, 100, 100⟩, annots? := some [AnnotEntry.direct annL] }

/-- The right half the script emits for `pageC`: the annotation does not
reach past the midline, so the `/Annots` key is deleted. -/
def rightC : HalfPage := { box := ⟨100, 0, 200, 100⟩, annots? := none }

/-- The left half the script emits for `pageA`. -/
def leftA : HalfPage := { box := ⟨0, 0, 100, 100⟩, annots? := none }

/-- The right half the script emits for `pageA`. -/
def rightA : HalfPage := { box := ⟨100, 0, 200, 100⟩, annots? := none }

/-- An annotation entry whose resolution raises. -/
def badEntry : AnnotEntry := AnnotEntry.badRef 5

/-! Helper lemmas. -/

theorem filterAnnots_eq_spec (quiet : Bool) (xMin xMax : ℚ)
    (entries : List AnnotEntry) :
    (filterAnnots quiet xMin xMax entries).1 = specFilterAnnots xMin xMax entries := by
  induction entries with
  | nil => rfl
  | cons e rest ih =>
    cases e with
    | badRef t =>
      simpa [filterAnnots, specFilterAnnots, resolvedAnnots, resolveOpt,
        resolve, List.filterMap_cons] using ih
    | direct a =>
      by_cases hov : annotOverlaps xMin xMax a = true <;>
        simp [filterAnnots, specFilterAnnots, resolvedAnnots, resolveOpt,
          resolve, List.filterMap_cons, List.filter_cons, hov, ih]
    | ref a =>
      by_cases hov : annotOverlaps xMin xMax a = true <;>
        simp [filterAnnots, specFilterAnnots, resolvedAnnots, resolveOpt,
          resolve, List.filterMap_cons, List.filter_cons, hov, ih]

theorem filterAnnots_warnings (quiet : Bool) (xMin xMax : ℚ)
    (entries : List AnnotEntry) :
    (filterAnnots quiet xMin xMax entries).2 =
      if quiet then 0 else entries.countP resolveFails := by
  induction entries with
  | nil => simp [filterAnnots]
  | cons e rest ih =>
    cases e <;> cases quiet <;>
      simp [filterAnnots, resolve, resolveFails, List.countP_cons, ih,
        apply_ite Prod.snd] <;>
      omega

theorem filterAnnots_sublist (quiet : Bool) (xMin xMax : ℚ)
    (entries : List AnnotEntry) :
    ((filterAnnots quiet xMin xMax entries).1).Sublist (resolvedAnnots entries) := by
  rw [filterAnnots_eq_spec]
  exact List.filter_sublist _

theorem mem_filterAnnots (quiet : Bool) (xMin xMax : ℚ)
    (entries : List AnnotEntry) (a : AnnotObj) :
    a ∈ (filterAnnots quiet xMin xMax entries).1 ↔
      a ∈ resolvedAnnots entries ∧ annotOverlaps xMin xMax a = true := by
  rw [filterAnnots_eq_spec]
  simp [specFilterAnnots, List.mem_filter]

theorem halfAnnots_fst_quiet (q1 q2 : Bool) (xMin xMax : ℚ)
    (annots? : Option (List AnnotEntry)) :
    (halfAnnots q1 xMin xMax annots?).1 = (halfAnnots q2 xMin xMax annots?).1 := by
  cases annots? with
  | none => rfl
  | some annots =>
    by_cases he : annots.isEmpty <;>
      simp [halfAnnots, he, filterAnnots_eq_spec, apply_ite Prod.fst]

theorem processPage_ok_of_box (quiet : Bool) (p : Page)
    (h : p.cropBox?.isSome ∨ p.mediaBox?.isSome) :
    ∃ v, processPage quiet p = .ok v := by
  unfold processPage get_page_dimensions
  cases hc : p.cropBox? with
  | some cb => exact ⟨_, rfl⟩
  | none =>
    cases hm : p.mediaBox? with
    | some mb => exact ⟨_, rfl⟩
    | none => simp [hc, hm] at h

theorem processPage_error_of_boxless (quiet : Bool) (p : Page)
    (hc : p.cropBox? = none) (hm : p.mediaBox? = none) :
    processPage quiet p = .error () := by
  unfold processPage get_page_dimensions
  rw [hc, hm]

theorem process_pdf_ok_of_boxes (quiet : Bool) (pages : List Page)
    (h : ∀ p ∈ pages, p.cropBox?.isSome ∨ p.mediaBox?.isSome) :
    ∃ v, process_pdf quiet pages = .ok v := by
  induction pages with
  | nil => exact ⟨([], 0), rfl⟩
  | cons p rest ih =>
    obtain ⟨v, hv⟩ := ih (fun q hq => h q (List.mem_cons_of_mem _ hq))
    obtain ⟨w, hw⟩ := processPage_ok_of_box quiet p (h p (List.mem_cons_self _ _))
    obtain ⟨l, r, n⟩ := w
    obtain ⟨out, m⟩ := v
    exact ⟨(l :: r :: out, n + m), by simp [process_pdf, hw, hv]⟩

theorem process_pdf_error_of_boxless (quiet : Bool) (pages : List Page)
    (p : Page) (hmem : p ∈ pages)
    (hc : p.cropBox? = none) (hm : p.mediaBox? = none) :
    process_pdf quiet pages = .error () := by
  induction pages with
  | nil => cases hmem
  | cons q rest ih =>
    rcases List.mem_cons.mp hmem with rfl | h2
    · unfold process_pdf
      rw [processPage_error_of_boxless quiet p hc hm]
    · unfold process_pdf
      cases hq : processPage quiet q with
      | error e => rfl
      | ok v =>
        obtain ⟨l, r, n⟩ := v
        simp [ih h2]

theorem processPage_halves_quiet (q1 q2 : Bool) (p : Page) :
    (processPage q1 p).map (fun x => (x.1, x.2.1)) =
      (processPage q2 p).map (fun x => (x.1, x.2.1)) := by
  unfold processPage
  cases hd : get_page_dimensions p with
  | error e => rfl
  | ok d =>
    obtain ⟨w, h, x0, y0⟩ := d
    simp [Except.map, halfAnnots_fst_quiet q1 q2]

theorem process_pdf_output_quiet (q1 q2 : Bool) (pages : List Page) :
    (process_pdf q1 pages).map Prod.fst = (process_pdf q2 pages).map Prod.fst := by
  induction pages with
  | nil => rfl
  | cons p rest ih =>
    have hp := processPage_halves_quiet q1 q2 p
    unfold process_pdf
    cases h1 : processPage q1 p with
    | error e =>
      cases h2 : processPage q2 p with
      | error e2 => rfl
      | ok v2 => rw [h1, h2] at hp; simp [Except.map] at hp
    | ok v1 =>
      cases h2 : processPage q2 p with
      | error e2 => rw [h1, h2] at hp; simp [Except.map] at hp
      | ok v2 =>
        rw [h1, h2] at hp
        obtain ⟨l1, r1, n1⟩ := v1
        obtain ⟨l2, r2, n2⟩ := v2
        simp [Except.map] at hp
        obtain ⟨hl, hr⟩ := hp
        subst hl; subst hr
        cases hr1 : process_pdf q1 rest with
        | error e =>
          cases hr2 : process_pdf q2 rest with
          | error e2 => rfl
          | ok w2 => rw [hr1, hr2] at ih; simp [Except.map] at ih
        | ok w1 =>
          cases hr2 : process_pdf q2 rest with
          | error e2 => rw [hr1, hr2] at ih; simp [Except.map] at ih
          | ok w2 =>
            rw [hr1, hr2] at ih
            obtain ⟨out1, m1⟩ := w1
            obtain ⟨out2, m2⟩ := w2
            simp [Except.map] at ih ⊢
            exact ih

theorem runSplit_quiet (q1 q2 : Bool) (pages : List Page) :
    runSplit q1 pages = runSplit q2 pages := by
  have h := process_pdf_output_quiet q1 q2 pages
  unfold runSplit
  cases h1 : process_pdf q1 pages with
  | error e =>
    cases h2 : process_pdf q2 pages with
    | error e2 => rfl
    | ok v2 => rw [h1, h2] at h; simp [Except.map] at h
  | ok v1 =>
    cases h2 : process_pdf q2 pages with
    | error e2 => rw [h1, h2] at h; simp [Except.map] at h
    | ok v2 =>
      rw [h1, h2] at h
      simp [Except.map] at h
      simp [h]

theorem length_modifyIdx (f : Page → Page) (i : Nat) (s : List Page) :
    (modifyIdx f i s).length = s.length := by
  induction s generalizing i with
  | nil => cases i <;> rfl
  | cons p rest ih =>
    cases i with
    | zero => rfl
    | succ n => simp [modifyIdx, ih]

theorem getElem?_modifyIdx_ne (f : Page → Page) (i j : Nat) (s : List Page)
    (h : j ≠ i) : (modifyIdx f i s)[j]? = s[j]? := by
  induction s generalizing i j with
  | nil => cases i <;> rfl
  | cons p rest ih =>
    cases i with
    | zero =>
      cases j with
      | zero => exact absurd rfl h
      | succ m => simp [modifyIdx]
    | succ n =>
      cases j with
      | zero => simp [modifyIdx]
      | succ m => simp [modifyIdx, ih n m (by omega)]

theorem getElem?_modifyIdx_eq (f : Page → Page) (i : Nat) (s : List Page) :
    (modifyIdx f i s)[i]? = (s[i]?).map f := by
  induction s generalizing i with
  | nil => cases i <;> rfl
  | cons p rest ih =>
    cases i with
    | zero => simp [modifyIdx]
    | succ n => simp [modifyIdx, ih]

theorem getElem?_append_left_of_lt (s t : List Page) (j : Nat)
    (h : j < s.length) : (s ++ t)[j]? = s[j]? := by
  simp [List.getElem?_append, h]

theorem getElem?_append_self (s : List Page) (p : Page) :
    (s ++ [p])[s.length]? = some p := by
  simp

/-- C1: for every source page with visible area `(w, h, x0, y0)` the left
half's box is `(x0, y0)`-`(x0 + w/2, y0 + h)` and the right half's box is
`(x0 + w/2, y0)`-`(x0 + w, y0 + h)`; each half is `w/2` wide and `h`
tall. -/
theorem C1_half_boxes (quiet : Bool) (p : Page) (l r : HalfPage) (n : Nat)
    (w h x0 y0 : ℚ)
    (hd : get_page_dimensions p = .ok (w, h, x0, y0))
    (hp : processPage quiet p = .ok (l, r, n)) :
    l.box = ⟨x0, y0, x0 + w / 2, y0 + h⟩ ∧
    r.box = ⟨x0 + w / 2, y0, x0 + w, y0 + h⟩ ∧
    boxWidth l.box = w / 2 ∧ boxWidth r.box = w / 2 ∧
    boxHeight l.box = h ∧ boxHeight r.box = h := by
  unfold processPage at hp
  rw [hd] at hp
  simp only [Except.ok.injEq, Prod.mk.injEq] at hp
  obtain ⟨hl, hr, -⟩ := hp
  subst hl; subst hr
  refine ⟨rfl, rfl, ?_, ?_, ?_, ?_⟩ <;> simp [boxWidth, boxHeight] <;> ring

theorem C1_witness :
    get_page_dimensions pageA = .ok (200, 100, 0, 0) ∧
    processPage false pageA =
      .ok ({ box := ⟨0, 0, 100, 100⟩, annots? := none },
           { box := ⟨100, 0, 200, 100⟩, annots? := none }, 0) ∧
    boxWidth (⟨0, 0, 100, 100⟩ : Rect) = 200 / 2 ∧
    boxHeight (⟨100, 0, 200, 100⟩ : Rect) = 100 := by
  have hd : get_page_dimensions pageA = .ok (200, 100, 0, 0) := by
    norm_num [get_page_dimensions, pageA, boxWidth, boxHeight]
  have hp : processPage false pageA =
      .ok ({ box := ⟨0, 0, 100, 100⟩, annots? := none },
           { box := ⟨100, 0, 200, 100⟩, annots? := none }, 0) := by
    norm_num [processPage, get_page_dimensions, pageA, boxWidth, boxHeight,
      halfAnnots]
  have h := C1_half_boxes false pageA _ _ 0 200 100 0 0 hd hp
  exact ⟨hd, hp, h.2.2.1, h.2.2.2.2.2⟩

/-- C5: `get_page_dimensions` uses the CropBox whenever present and
otherwise the MediaBox, returning width `right - left`, height
`top - bottom`, and the chosen box's lower-left corner as the offsets. -/
theorem C5_visible_area (p : Page) :
    (∀ cb, p.cropBox? = some cb →
      get_page_dimensions p =
        .ok (cb.right - cb.left, cb.top - cb.bottom, cb.left, cb.bottom)) ∧
    (p.cropBox? = none → ∀ mb, p.mediaBox? = some mb →
      get_page_dimensions p =
        .ok (mb.right - mb.left, mb.top - mb.bottom, mb.left, mb.bottom)) := by
  constructor
  · intro cb hcb
    simp [get_page_dimensions, hcb, boxWidth, boxHeight]
  · intro hc mb hmb
    simp [get_page_dimensions, hc, hmb, boxWidth, boxHeight]

theorem C5_witness :
    get_page_dimensions pageB = .ok (190 - 10, 90 - 10, 10, 10) ∧
    get_page_dimensions pageA = .ok (200 - 0, 100 - 0, 0, 0) := by
  constructor
  · exact (C5_visible_area pageB).1 ⟨10, 10, 190, 90⟩ rfl
  · exact (C5_visible_area pageA).2 rfl ⟨0, 0, 200, 100⟩ rfl

/-- C2: the annotations retained on a half with horizontal bounds
`[xMin, xMax)` are exactly the resolved source annotations whose Rect
satisfies `x_right > xMin` and `x_left < xMax` (strict), unmodified and
in source order — a subsequence of the resolved annotation sequence. -/
theorem C2_retained_annotations (quiet : Bool) (xMin xMax : ℚ)
    (entries : List AnnotEntry) :
    (filterAnnots quiet xMin xMax entries).1 = specFilterAnnots xMin xMax entries ∧
    ((filterAnnots quiet xMin xMax entries).1).Sublist (resolvedAnnots entries) ∧
    (∀ a, a ∈ resolvedAnnots entries → ∀ rect, a.rect? = some rect →
      (a ∈ (filterAnnots quiet xMin xMax entries).1 ↔
        xMin < rect.right ∧ rect.left < xMax)) := by
  refine ⟨filterAnnots_eq_spec quiet xMin xMax entries,
    filterAnnots_sublist quiet xMin xMax entries, ?_⟩
  intro a hmem rect hrect
  rw [mem_filterAnnots]
  simp [annotOverlaps, hrect, hmem]

theorem C2_witness :
    straddleAnnot ∈ (filterAnnots false 0 100 [AnnotEntry.direct straddleAnnot]).1 ∧
    straddleAnnot ∈ (filterAnnots false 100 200 [AnnotEntry.direct straddleAnnot]).1 := by
  have hmem : straddleAnnot ∈ resolvedAnnots [AnnotEntry.direct straddleAnnot] := by
    simp [resolvedAnnots, resolveOpt, resolve]
  constructor
  · exact ((C2_retained_annotations false 0 100 _).2.2 straddleAnnot hmem
      ⟨90, 0, 110, 50⟩ rfl).mpr (by norm_num)
  · exact ((C2_retained_annotations false 100 200 _).2.2 straddleAnnot hmem
      ⟨90, 0, 110, 50⟩ rfl).mpr (by norm_num)

/-- C10: retention depends only on the x-coordinates of the resolved
Rect — two resolved annotations agreeing in `x_left` and `x_right` but
with arbitrary vertical extents are retained on exactly the same
halves. -/
theorem C10_y_irrelevant (quiet : Bool) (xMin xMax : ℚ)
    (entries : List AnnotEntry) (a b : AnnotObj) (ra rb : Rect)
    (ha : a.rect? = some ra) (hb : b.rect? = some rb)
    (hleft : ra.left = rb.left) (hright : ra.right = rb.right)
    (hma : a ∈ resolvedAnnots entries) (hmb : b ∈ resolvedAnnots entries) :
    (a ∈ (filterAnnots quiet xMin xMax entries).1 ↔
      b ∈ (filterAnnots quiet xMin xMax entries).1) := by
  rw [mem_filterAnnots, mem_filterAnnots]
  simp only [annotOverlaps, ha, hb, hleft, hright, hma, hmb, true_and]

theorem C10_witness :
    annL ∈ (filterAnnots false 0 100
      [AnnotEntry.direct annL, AnnotEntry.direct annLhigh]).1 ↔
    annLhigh ∈ (filterAnnots false 0 100
      [AnnotEntry.direct annL, AnnotEntry.direct annLhigh]).1 := by
  exact C10_y_irrelevant false 0 100 _ annL annLhigh
    ⟨40, 0, 60, 50⟩ ⟨40, 500, 60, 900⟩ rfl rfl rfl rfl
    (by simp [resolvedAnnots, resolveOpt, resolve])
    (by simp [resolvedAnnots, resolveOpt, resolve])

/-- C3: a successful run over an N-page input yields exactly 2N half
pages, ordered left then right per source page, preserving page order:
slot `2i` holds the left half and slot `2i + 1` the right half of source
page `i`. -/
theorem C3_page_count_order (quiet : Bool) (pages : List Page)
    (out : List HalfPage) (n : Nat)
    (hp : process_pdf quiet pages = .ok (out, n)) :
    out.length = 2 * pages.length ∧
    ∀ i, i < pages.length →
      ∃ l r k, processPage quiet (pages.getD i default) = .ok (l, r, k) ∧
        out[2 * i]? = some l ∧ out[2 * i + 1]? = some r := by
  induction pages generalizing out n with
  | nil =>
    simp only [process_pdf, Except.ok.injEq, Prod.mk.injEq] at hp
    obtain ⟨rfl, rfl⟩ := hp
    exact ⟨rfl, fun i hi => absurd hi (by simp)⟩
  | cons p rest ih =>
    unfold process_pdf at hp
    cases hpp : processPage quiet p with
    | error e => rw [hpp] at hp; cases hp
    | ok v =>
      obtain ⟨l, r, k⟩ := v
      rw [hpp] at hp
      cases hrest : process_pdf quiet rest with
      | error e => rw [hrest] at hp; cases hp
      | ok w =>
        obtain ⟨out2, m⟩ := w
        rw [hrest] at hp
        simp only [Except.ok.injEq, Prod.mk.injEq] at hp
        obtain ⟨rfl, rfl⟩ := hp
        obtain ⟨hlen, hidx⟩ := ih out2 m hrest
        constructor
        · simp [hlen]; omega
        · intro i hi
          cases i with
          | zero => exact ⟨l, r, k, by simpa using hpp, by simp, by simp⟩
          | succ j =>
            obtain ⟨l2, r2, k2, hpj, ho1, ho2⟩ := hidx j (by simpa using hi)
            refine ⟨l2, r2, k2, by simpa using hpj, ?_, ?_⟩
            · have h2 : 2 * (j + 1) = 2 * j + 1 + 1 := by ring
              rw [h2]
              simpa using ho1
            · have h2 : 2 * (j + 1) + 1 = 2 * j + 1 + 1 + 1 := by ring
              rw [h2]
              simpa using ho2

theorem C3_witness :
    [leftA, rightA].length = 2 * [pageA].length ∧
    ∃ l r k, processPage false ([pageA].getD 0 default) = .ok (l, r, k) ∧
      [leftA, rightA][2 * 0]? = some l ∧ [leftA, rightA][2 * 0 + 1]? = some r := by
  have hp : process_pdf false [pageA] = .ok ([leftA, rightA], 0) := by
    norm_num [process_pdf, processPage, get_page_dimensions, pageA, leftA,
      rightA, boxWidth, boxHeight, halfAnnots]
  have h := C3_page_count_order false [pageA] [leftA, rightA] 0 hp
  exact ⟨h.1, h.2 0 (by norm_num)⟩

/-- C4 counterexample: a page whose MediaBox has zero width is not
rejected — the run succeeds with exit code 0 and writes two degenerate
halves, so non-positive dimensions do not trigger a malformed-page
error. -/
theorem C4_counterexample :
    runSplit false [pageZeroWidth] =
      { exitCode := 0,
        output? := some [{ box := ⟨0, 0, 0, 100⟩, annots? := none },
                         { box := ⟨0, 0, 0, 100⟩, annots? := none }] } := by
  norm_num [runSplit, process_pdf, processPage, get_page_dimensions,
    pageZeroWidth, boxWidth, boxHeight, halfAnnots]

/-- C4 amended: if any page has neither a CropBox nor a MediaBox the run
aborts with exit code 1 and no output file is created — no default size
is guessed; non-positive dimensions, however, are not checked. -/
theorem C4_missing_boxes_abort (quiet : Bool) (pages : List Page) (p : Page)
    (hmem : p ∈ pages) (hc : p.cropBox? = none) (hm : p.mediaBox? = none) :
    runSplit quiet pages = { exitCode := 1, output? := none } := by
  have h := process_pdf_error_of_boxless quiet pages p hmem hc hm
  simp [runSplit, h]

theorem C4_witness :
    runSplit false [pageA, pageNoBoxes] = { exitCode := 1, output? := none } := by
  exact C4_missing_boxes_abort false [pageA, pageNoBoxes] pageNoBoxes
    (by simp) rfl rfl

/-- C6 counterexample: a resolved annotation with no `/Rect` entry is
dropped from the half silently — zero warnings are emitted even though
`quiet` is off, contradicting the claim that every structurally failing
annotation is dropped with a recoverable warning. -/
theorem C6_counterexample :
    filterAnnots false 0 100 [AnnotEntry.direct noRectAnnot] = ([], 0) := by
  norm_num [filterAnnots, annotOverlaps, resolve, noRectAnnot]

/-- C6 amended: an annotation whose resolution raises is dropped with a
warning (suppressed when quiet) and an annotation without a `/Rect` is
dropped silently; either way the remaining annotations are filtered
exactly as usual — the warning count is exactly the number of raising
entries — and a run over pages that all have a box still exits 0, so a
bad annotation never aborts the run. -/
theorem C6_bad_annotations_recoverable (quiet : Bool) (xMin xMax : ℚ)
    (entries : List AnnotEntry) (pages : List Page)
    (hboxes : ∀ p ∈ pages, p.cropBox?.isSome ∨ p.mediaBox?.isSome) :
    (filterAnnots quiet xMin xMax entries).1 = specFilterAnnots xMin xMax entries ∧
    (filterAnnots quiet xMin xMax entries).2 =
      (if quiet then 0 else entries.countP resolveFails) ∧
    (runSplit quiet pages).exitCode = 0 := by
  refine ⟨filterAnnots_eq_spec quiet xMin xMax entries,
    filterAnnots_warnings quiet xMin xMax entries, ?_⟩
  obtain ⟨v, hv⟩ := process_pdf_ok_of_boxes quiet pages hboxes
  obtain ⟨out, m⟩ := v
  simp [runSplit, hv]

theorem C6_witness :
    (filterAnnots false 0 100 [badEntry, AnnotEntry.direct annL]).1 =
      specFilterAnnots 0 100 [badEntry, AnnotEntry.direct annL] ∧
    (filterAnnots false 0 100 [badEntry, AnnotEntry.direct annL]).2 =
      [badEntry, AnnotEntry.direct annL].countP resolveFails ∧
    (runSplit false [pageC]).exitCode = 0 := by
  have h := C6_bad_annotations_recoverable false 0 100
    [badEntry, AnnotEntry.direct annL] [pageC]
    (by intro p hp; simp at hp; subst hp; simp [pageC])
  exact ⟨h.1, by simpa using h.2.1, h.2.2⟩

/-- C7 counterexample: a source page whose `/Annots` array is present
but empty keeps the empty array on both halves — the retained sequence
is empty yet the annotation attribute is still set, as an explicit empty
list. -/
theorem C7_counterexample :
    processPage false pageEmptyAnnots =
      .ok ({ box := ⟨0, 0, 100, 100⟩, annots? := some [] },
           { box := ⟨100, 0, 200, 100⟩, annots? := some [] }, 0) := by
  norm_num [processPage, get_page_dimensions, pageEmptyAnnots, boxWidth,
    boxHeight, halfAnnots]

/-- C7 amended: a half page ends with no annotation attribute exactly in
two cases — the source page had none, or the source array was nonempty
and every annotation was filtered out (the `/Annots` key is deleted); a
source page whose `/Annots` array is already empty keeps the empty
array on both halves. -/
theorem C7_absent_annots (quiet : Bool) (p : Page) (l r : HalfPage) (n : Nat)
    (w h x0 y0 : ℚ)
    (hd : get_page_dimensions p = .ok (w, h, x0, y0))
    (hp : processPage quiet p = .ok (l, r, n)) :
    (p.annots? = none → l.annots? = none ∧ r.annots? = none) ∧
    (p.annots? = some [] → l.annots? = some [] ∧ r.annots? = some []) ∧
    (∀ entries, p.annots? = some entries → entries ≠ [] →
      ((filterAnnots quiet x0 (x0 + w / 2) entries).1 = [] → l.annots? = none) ∧
      ((filterAnnots quiet (x0 + w / 2) (x0 + w) entries).1 = [] → r.annots? = none)) := by
  unfold processPage at hp
  rw [hd] at hp
  simp only [Except.ok.injEq, Prod.mk.injEq] at hp
  obtain ⟨hl, hr, -⟩ := hp
  subst hl; subst hr
  refine ⟨?_, ?_, ?_⟩
  · intro ha; simp [halfAnnots, ha]
  · intro ha; simp [halfAnnots, ha]
  · intro entries ha hne
    constructor
    · intro hf
      simp [halfAnnots, ha, List.isEmpty_iff, hne, hf]
    · intro hf
      simp [halfAnnots, ha, List.isEmpty_iff, hne, hf]

theorem C7_witness :
    processPage false pageC = .ok (leftC, rightC, 0) ∧ rightC.annots? = none := by
  have hd : get_page_dimensions pageC = .ok (200, 100, 0, 0) := by
    norm_num [get_page_dimensions, pageC, boxWidth, boxHeight]
  have hp : processPage false pageC = .ok (leftC, rightC, 0) := by
    norm_num [processPage, get_page_dimensions, pageC, leftC, rightC,
      boxWidth, boxHeight, halfAnnots, filterAnnots, annotOverlaps, resolve,
      annL]
  refine ⟨hp, ?_⟩
  exact ((C7_absent_annots false pageC leftC rightC 0 200 100 0 0 hd hp).2.2
    [AnnotEntry.direct annL] rfl (by simp)).2
    (by norm_num [filterAnnots, annotOverlaps, resolve, annL])

/-- C8: the half-page construction only creates new objects: every
pre-existing store slot — the source page included — is unchanged, each
half is an independent copy of the source page at a fresh index carrying
only its own assigned box, and assigning a further bounding box to one
half's slot affects no other slot. -/
theorem C8_no_mutation (s : List Page) (i : Nat) (w h x0 y0 : ℚ)
    (hi : i < s.length) :
    (∀ j, j < s.length → (splitStore s i w h x0 y0).1[j]? = s[j]?) ∧
    (splitStore s i w h x0 y0).2.1 = s.length ∧
    (splitStore s i w h x0 y0).2.2 = s.length + 1 ∧
    (splitStore s i w h x0 y0).1[s.length]? =
      some (mediabox_assign ⟨x0, y0, x0 + w / 2, y0 + h⟩ (s.getD i default)) ∧
    (splitStore s i w h x0 y0).1[s.length + 1]? =
      some (mediabox_assign ⟨x0 + w / 2, y0, x0 + w, y0 + h⟩ (s.getD i default)) ∧
    (∀ b j, j ≠ s.length →
      (modifyIdx (mediabox_assign b) s.length (splitStore s i w h x0 y0).1)[j]? =
        (splitStore s i w h x0 y0).1[j]?) ∧
    (∀ b j, j ≠ s.length + 1 →
      (modifyIdx (mediabox_assign b) (s.length + 1) (splitStore s i w h x0 y0).1)[j]? =
        (splitStore s i w h x0 y0).1[j]?) := by
  have hlen1 : (modifyIdx (mediabox_assign ⟨x0, y0, x0 + w / 2, y0 + h⟩)
      s.length (s ++ [s.getD i default])).length = s.length + 1 := by
    rw [length_modifyIdx]; simp
  have hres : splitStore s i w h x0 y0 =
      (modifyIdx (mediabox_assign ⟨x0 + w / 2, y0, x0 + w, y0 + h⟩)
        (s.length + 1)
        (modifyIdx (mediabox_assign ⟨x0, y0, x0 + w / 2, y0 + h⟩)
          s.length (s ++ [s.getD i default]) ++ [s.getD i default]),
       s.length, s.length + 1) := by
    simp only [splitStore, pdfwriter_add_page]
    rw [hlen1]
  rw [hres]
  have hsrc1 : (s ++ [s.getD i default])[s.length]? = some (s.getD i default) :=
    getElem?_append_self s _
  refine ⟨?_, rfl, rfl, ?_, ?_, ?_, ?_⟩
  · intro j hj
    rw [getElem?_modifyIdx_ne _ _ _ _ (by omega),
        getElem?_append_left_of_lt _ _ _ (by rw [hlen1]; omega),
        getElem?_modifyIdx_ne _ _ _ _ (by omega),
        getElem?_append_left_of_lt _ _ _ hj]
  · rw [getElem?_modifyIdx_ne _ _ _ _ (by omega),
        getElem?_append_left_of_lt _ _ _ (by rw [hlen1]; omega),
        getElem?_modifyIdx_eq, hsrc1]
    rfl
  · rw [getElem?_modifyIdx_eq]
    have h2 : (modifyIdx (mediabox_assign ⟨x0, y0, x0 + w / 2, y0 + h⟩)
        s.length (s ++ [s.getD i default]) ++ [s.getD i default])[s.length + 1]? =
        some (s.getD i default) := by
      have h3 := getElem?_append_self (modifyIdx
        (mediabox_assign ⟨x0, y0, x0 + w / 2, y0 + h⟩)
        s.length (s ++ [s.getD i default])) (s.getD i default)
      rwa [hlen1] at h3
    rw [h2]
    rfl
  · intro b j hj
    exact getElem?_modifyIdx_ne _ _ _ _ hj
  · intro b j hj
    exact getElem?_modifyIdx_ne _ _ _ _ hj

theorem C8_witness :
    (splitStore [pageA] 0 200 100 0 0).1[0]? = [pageA][0]? ∧
    (splitStore [pageA] 0 200 100 0 0).1[1]? =
      some (mediabox_assign ⟨0, 0, 0 + 200 / 2, 0 + 100⟩ ([pageA].getD 0 default)) := by
  have h := C8_no_mutation [pageA] 0 200 100 0 0 (by simp)
  exact ⟨h.1 0 (by simp), by simpa using h.2.2.2.1⟩

/-- C9 counterexample: the `typer` command `main` declares no option at
all, so the CLI does not accept a `--quiet` or `-q` flag. -/
theorem C9_counterexample :
    "--quiet" ∉ main_option_names ∧ "-q" ∉ main_option_names := by
  simp [main_option_names]

/-- C9 amended: the CLI exposes no quiet flag and always runs with
`quiet = False`; the internal `quiet` parameter of
`PDFProcessor.process_pdf`, when set, suppresses the per-annotation
warnings without changing the kept annotations, the output document or
the exit code. -/
theorem C9_quiet_internal_only (pages : List Page) (xMin xMax : ℚ)
    (entries : List AnnotEntry) :
    main_option_names = [] ∧ cli_quiet = false ∧
    cliRun pages = runSplit false pages ∧
    (filterAnnots true xMin xMax entries).2 = 0 ∧
    (filterAnnots true xMin xMax entries).1 =
      (filterAnnots false xMin xMax entries).1 ∧
    runSplit true pages = runSplit false pages := by
  refine ⟨rfl, rfl, rfl, ?_, ?_, runSplit_quiet true false pages⟩
  · simp [filterAnnots_warnings]
  · rw [filterAnnots_eq_spec, filterAnnots_eq_spec]

theorem C9_witness :
    (filterAnnots true 0 100 [badEntry]).2 = 0 ∧
    runSplit true [pageA] = runSplit false [pageA] := by
  have h := C9_quiet_internal_only [pageA] 0 100 [badEntry]
  exact ⟨h.2.2.2.1, h.2.2.2.2.2⟩
